import Mathlib

/-!
Verification of the Aura session-tracking core and its React prototype.

Aura is a floating HUD that tracks AI coding agent sessions.  The repository
snapshot contains the React prototype (`prototype/src`), documentation and
Gherkin feature files; the Rust core (crates `aura`/`aura-common`, hosting the
`SessionRegistry` state machine, the Claude Code hook parser and the view
projection) is not part of the snapshot.  Definitions in namespace `Core` are
therefore modelled from the specification's authoritative tables (§3, §4.2,
§4.5, §4.6), each marked as such; definitions in namespace `Prototype` are
translated directly from the TypeScript prototype sources.
-/

namespace Aura

namespace Core

/-- Modelled from the spec: §3 `state ∈ {Running, Idle, Attention, Waiting,
Compacting, Stale}` (the Rust `SessionState` in crate `aura-common` is not in
the snapshot). -/
inductive SessionState where
  | running
  | idle
  | attention
  | waiting
  | compacting
  | stale
deriving DecidableEq, Repr

/-- Modelled from the spec: §3 `RunningTool`
`{ tool_id: string, tool_name: string, tool_label: optional string }`. -/
structure RunningTool where
  toolId : String
  toolName : String
  toolLabel : Option String
deriving DecidableEq, Repr

/-- Modelled from the spec: §3 Session attributes (`agent_kind` and
`last_event_at` are omitted: no claim observes the agent kind, and
`last_event_at` only drives the stale timer, which is modelled explicitly by
`staleEligible`/`fireStale` below). -/
structure Session where
  sessionId : String
  cwd : String
  name : Option String
  state : SessionState
  runningTools : List RunningTool
  stoppedAt : Option Nat
  staleAt : Option Nat
  permissionTool : Option String
deriving DecidableEq, Repr

/-- Modelled from the spec: §3 AgentEvent, a closed sum; each variant carries
the target `session_id`. -/
inductive AgentEvent where
  | sessionStarted (sessionId : String) (cwd : String) (name : Option String)
  | toolStarted (sessionId : String) (toolId : String) (toolName : String)
      (toolLabel : Option String)
  | toolCompleted (sessionId : String) (toolId : String)
  | activity (sessionId : String)
  | idle (sessionId : String)
  | needsAttention (sessionId : String) (message : Option String)
  | waitingForInput (sessionId : String)
  | compacting (sessionId : String)
  | sessionNameUpdated (sessionId : String) (name : String)
  | sessionEnded (sessionId : String)
deriving DecidableEq, Repr

/-- The `session_id` carried by an event. -/
def AgentEvent.sessionId : AgentEvent → String
  | .sessionStarted sid _ _ => sid
  | .toolStarted sid _ _ _ => sid
  | .toolCompleted sid _ => sid
  | .activity sid => sid
  | .idle sid => sid
  | .needsAttention sid _ => sid
  | .waitingForInput sid => sid
  | .compacting sid => sid
  | .sessionNameUpdated sid _ => sid
  | .sessionEnded sid => sid

/-- The registry is the list of tracked sessions (ordered, keyed by
`session_id`, invariant I1). -/
abbrev Registry := List Session

/-- Does the session currently run a tool with this id? -/
def Session.hasTool (s : Session) (tid : String) : Bool :=
  s.runningTools.any fun t => t.toolId == tid

/-- Transition a session into `Running`.  Per I5 `permission_tool` is cleared
on any exit from Attention, and per §3 `stopped_at`/`stale_at` are cleared on
leaving Idle/Stale. -/
def enterRunning (s : Session) : Session :=
  { s with state := .running, permissionTool := none,
           stoppedAt := none, staleAt := none }

/-- Modelled from the spec: §3 `SessionStarted` effect, "create if absent;
state = Running" — the fresh session has empty `running_tools`. -/
def newSession (sid cwd : String) (name : Option String) : Session :=
  { sessionId := sid, cwd := cwd, name := name, state := .running,
    runningTools := [], stoppedAt := none, staleAt := none,
    permissionTool := none }

/-- Modelled from the spec: one row of the §4.5 state-transition table,
applied to the session the event targets.  `now` is the wall clock used for
`stopped_at`/`stale_at`.  `SessionEnded` (row "delete") is handled at the
registry level by `applyEvent`. -/
def applySession (s : Session) (e : AgentEvent) (now : Nat) : Session :=
  match e with
  | .sessionStarted _ _ _ =>
      -- Running: "— (reset tools)"; any other state: "→ Running".
      if s.state = .running then { s with runningTools := [] }
      else enterRunning s
  | .toolStarted _ tid tname tlabel =>
      -- "add tool (dedup by id); state = Running".
      let s' := if s.state = .running then s else enterRunning s
      if s'.hasTool tid then s'
      else { s' with runningTools :=
               s'.runningTools ++ [⟨tid, tname, tlabel⟩] }
  | .toolCompleted _ tid =>
      -- "remove tool by id (idempotent)"; no state change.
      { s with runningTools := s.runningTools.filter fun t => t.toolId != tid }
  | .activity _ =>
      if s.state = .running then s else enterRunning s
  | .idle _ =>
      -- §3: "state = Idle; stopped_at = now; running_tools = ∅".
      { s with state := .idle, runningTools := [], stoppedAt := some now,
               staleAt := none, permissionTool := none }
  | .needsAttention _ m =>
      -- "→ Attention; permission_tool = m" (in Attention: set permission_tool).
      { s with state := .attention, permissionTool := m,
               stoppedAt := none, staleAt := none }
  | .waitingForInput _ =>
      if s.state = .waiting then s
      else { s with state := .waiting, permissionTool := none,
                    stoppedAt := none, staleAt := none }
  | .compacting _ =>
      if s.state = .compacting then s
      else { s with state := .compacting, permissionTool := none,
                    stoppedAt := none, staleAt := none }
  | .sessionNameUpdated _ n =>
      { s with name := some n }
  | .sessionEnded _ => s

/-- Modelled from the spec: §4.5 registry-level event application.  Events for
an unknown `session_id` other than `SessionStarted` are no-ops (§7 "Unknown
reference": do not fabricate a session). -/
def applyEvent (reg : Registry) (e : AgentEvent) (now : Nat) : Registry :=
  match e with
  | .sessionEnded sid =>
      reg.filter fun s => !(s.sessionId == sid)
  | .sessionStarted sid cwd nm =>
      if reg.any (fun s => s.sessionId == sid) then
        reg.map fun s =>
          if s.sessionId == sid then applySession s e now else s
      else
        reg ++ [newSession sid cwd nm]
  | _ =>
      reg.map fun s =>
        if s.sessionId == e.sessionId then applySession s e now else s

/-- Lookup by `session_id`. -/
def findSession? (reg : Registry) (sid : String) : Option Session :=
  reg.find? fun s => s.sessionId == sid

/-- Modelled from the spec: §4.5 stale timer — the timer is re-armed after an
event only if the new state is neither `Running` nor `Stale`, so only such
sessions are eligible to go stale (invariant I4). -/
def staleEligible (s : Session) : Bool :=
  s.state != .running && s.state != .stale

/-- The design value of the stale timeout (BDR-0003, §4.5): 10 minutes. -/
def staleTimeoutMinutes : Nat := 10

/-- Modelled from the spec: §4.5, the stale timer for `sid` fires.  A pending
fire whose arming was superseded by a later event is a no-op; this is captured
by checking `staleEligible` (which any event re-establishes) at fire time. -/
def fireStale (reg : Registry) (sid : String) (now : Nat) : Registry :=
  reg.map fun s =>
    if s.sessionId == sid && staleEligible s then
      { s with state := .stale, staleAt := some now,
               stoppedAt := none, permissionTool := none }
    else s

/-- Invariant I5 (the direction the events maintain): a set `permission_tool`
implies the session is in `Attention`; it is cleared on any exit. -/
def permInv (s : Session) : Prop :=
  s.permissionTool ≠ none → s.state = .attention

/-- Invariant I3: an idle session runs no tools. -/
def idleInv (s : Session) : Prop :=
  s.state = .idle → s.runningTools = []

/-- Apply `ToolCompleted(sid, tid)` to the registry `k` times. -/
def applyCompletedN (reg : Registry) (sid tid : String) (now : Nat) :
    Nat → Registry
  | 0 => reg
  | k + 1 =>
      applyEvent (applyCompletedN reg sid tid now k) (.toolCompleted sid tid)
        now

/-- Modelled from the spec: the §4.2 hook-mapping row for
`Notification { notification_type, tool_name?, message? }`:
`permission_prompt ⇒ NeedsAttention(tool_name)`;
`idle_prompt ⇒ WaitingForInput`; otherwise `NeedsAttention(message)`. -/
def notificationEvents (sid : String) (notificationType : String)
    (toolName : Option String) (message : Option String) : List AgentEvent :=
  if notificationType == "permission_prompt" then
    [.needsAttention sid toolName]
  else if notificationType == "idle_prompt" then
    [.waitingForInput sid]
  else
    [.needsAttention sid message]

/-! ### View projection (spec §4.2 tool display, §4.6 per-row subtitle) -/

/-- Does the character list contain two consecutive underscores? -/
def hasDunder : List Char → Bool
  | [] => false
  | c :: rest => (c == '_' && rest.head? == some '_') || hasDunder rest

/-- Split a character list at the first occurrence of `__`, returning the
part before and the part after; `none` when no `__` occurs. -/
def splitDunder : List Char → Option (List Char × List Char)
  | [] => none
  | c :: rest =>
      if c == '_' && rest.head? == some '_' then some ([], rest.tail)
      else
        match splitDunder rest with
        | some (a, b) => some (c :: a, b)
        | none => none

/-- Modelled from the spec: §4.2, "any MCP tool (name starts with
`mcp__server__function`)": extract the server and function parts of an MCP
tool name, `none` for non-MCP names. -/
def mcpParts (name : String) : Option (String × String) :=
  match name.data with
  | 'm' :: 'c' :: 'p' :: '_' :: '_' :: rest =>
      match splitDunder rest with
      | some (srv, fn) => some (String.mk srv, String.mk fn)
      | none => none
  | _ => none

/-- Modelled from the spec: the tool display of a running tool.  §4.2: an MCP
tool displays as `"server: label"` where label is the extracted field if any,
else the function part; otherwise the UI falls back to `tool_name` when no
label was extracted (§4.6 "current tool label/name"). -/
def toolDisplay (toolName : String) (label : Option String) : String :=
  match mcpParts toolName with
  | some (srv, fn) => srv ++ ": " ++ label.getD fn
  | none => label.getD toolName

/-- Modelled from the spec: §4.6, the fixed placeholder set for a running
session with no tools. -/
def PLACEHOLDER_TEXTS : List String :=
  ["thinking…", "drafting…", "building…", "planning…",
   "analyzing…", "pondering…", "processing…", "reasoning…"]

/-- Modelled from the spec: §9, "deterministic hash of `session_id` into the
placeholder array, stable per process".  The spec fixes no hash function; the
model sums the code points of the id. -/
def sessionIdHash (sid : String) : Nat :=
  sid.data.foldl (fun a c => a + c.toNat) 0

/-- Modelled from the spec: the placeholder drawn for a `session_id`, a pure
function of the id. -/
def placeholderFor (sid : String) : String :=
  PLACEHOLDER_TEXTS.getD (sessionIdHash sid % PLACEHOLDER_TEXTS.length)
    "thinking…"

/-- Modelled from the spec: §4.6 per-row subtitle table.  `now` (milliseconds)
drives the tool-cycling index `(now_ms / 2000) mod |running_tools|`; timestamp
formatting is abstracted to `toString`. -/
def rowSubtitle (s : Session) (now : Nat) : String :=
  match s.state with
  | .idle => "waiting since " ++ toString (s.stoppedAt.getD 0)
  | .stale => "inactive since " ++ toString (s.staleAt.getD 0)
  | .attention => s.permissionTool.getD "Tool" ++ " needs permission"
  | .waiting => "waiting for input"
  | .compacting => "compacting context…"
  | .running =>
      match s.runningTools with
      | [] => placeholderFor s.sessionId
      | ts =>
          let t := ts.getD ((now / 2000) % ts.length) ⟨"", "", none⟩
          toolDisplay t.toolName t.toolLabel

end Core

namespace Prototype

/-!
Shallow embedding of the React prototype (`prototype/src`).  Session state and
records follow `types.ts`; the event reducer follows
`hooks/useSessionManager.ts`; the aggregate indicator follows
`components/Indicator.tsx`.
-/

/-- The `SessionState` union of `types.ts` (the revision used by `Indicator.tsx`,
which branches on `'waiting'`). -/
inductive SessionState where
  | running
  | idle
  | attention
  | waiting
  | compacting
  | stale
deriving DecidableEq, Repr

/-- The `RunningTool` record of `types.ts`. -/
structure RunningTool where
  toolId : String
  toolName : String
  toolLabel : Option String
deriving DecidableEq, Repr

/-- The `Session` record of `types.ts`, with the optional fields the reducer and
`SessionRow.tsx` use (`permissionTool`, `stoppedAt`, `staleAt`). -/
structure Session where
  sessionId : String
  cwd : String
  name : Option String
  state : SessionState
  runningTools : List RunningTool
  permissionTool : Option String := none
  stoppedAt : Option Nat := none
  staleAt : Option Nat := none
deriving DecidableEq, Repr

/-- The `SessionEvent` message interface of `useSessionManager.ts`. -/
structure SessionEvent where
  type : String
  sessionId : String
  cwd : Option String := none
  name : Option String := none
  toolId : Option String := none
  toolName : Option String := none
  toolLabel : Option String := none
deriving DecidableEq, Repr

/-- Translation of `handleEvent` in `useSessionManager.ts`: the switch over `msg.type`
applied to the current session list.  `now` stands for `Date.now()`. -/
def handleEvent (prev : List Session) (msg : SessionEvent) (now : Nat) :
    List Session :=
  if msg.type == "SessionStart" then
    if prev.any (fun s => s.sessionId == msg.sessionId) then prev
    else
      prev ++ [{ sessionId := msg.sessionId, cwd := msg.cwd.getD "/",
                 name := msg.name, state := .running, runningTools := [] }]
  else if msg.type == "PreToolUse" then
    let tool : RunningTool :=
      { toolId := msg.toolId.getD ("tool-" ++ toString now),
        toolName := msg.toolName.getD "Unknown",
        toolLabel := msg.toolLabel }
    prev.map fun s =>
      if !(s.sessionId == msg.sessionId) then s
      else if s.runningTools.any (fun t => t.toolId == tool.toolId) then s
      else { s with state := .running,
                    runningTools := s.runningTools ++ [tool] }
  else if msg.type == "PostToolUse" then
    prev.map fun s =>
      if !(s.sessionId == msg.sessionId) then s
      else { s with runningTools :=
               s.runningTools.filter fun t => !(some t.toolId == msg.toolId) }
  else if msg.type == "PermissionRequest" then
    prev.map fun s =>
      if s.sessionId == msg.sessionId then
        { s with state := .attention, permissionTool := msg.toolName }
      else s
  else if msg.type == "Stop" then
    prev.map fun s =>
      if s.sessionId == msg.sessionId then
        { s with state := .idle, runningTools := [], stoppedAt := some now }
      else s
  else if msg.type == "PreCompact" then
    prev.map fun s =>
      if s.sessionId == msg.sessionId then { s with state := .compacting }
      else s
  else if msg.type == "SessionEnd" then
    prev.filter fun s => !(s.sessionId == msg.sessionId)
  else if msg.type == "Notification" || msg.type == "SubagentStop"
      || msg.type == "UserPromptSubmit" then
    prev.map fun s =>
      if s.sessionId == msg.sessionId then { s with state := .running } else s
  else if msg.type == "Stale" then
    prev.map fun s =>
      if s.sessionId == msg.sessionId then
        { s with state := .stale, staleAt := some now }
      else s
  else prev

/-- The four-valued indicator state of `components/Indicator.tsx`. -/
inductive IndicatorState where
  | idle
  | attention
  | waiting
  | running
deriving DecidableEq, Repr

/-- Translation of `getIndicatorState` in `components/Indicator.tsx` (lines 15–30). -/
def getIndicatorState (sessions : List Session) : IndicatorState :=
  if sessions.length == 0 then .idle
  else
    let states := sessions.map fun s => s.state
    if states.contains .attention then .attention
    else if states.contains .waiting then .waiting
    else .running

/-- The `PLACEHOLDER_TEXTS` array of `constants.ts`. -/
def PLACEHOLDER_TEXTS : List String :=
  ["thinking...", "drafting...", "building...", "planning...",
   "analyzing...", "pondering...", "processing...", "reasoning..."]

/-- Translation of `getRandomPlaceholder` in `constants.ts`: `Math.random()` is modelled by
the draw `r`; the result indexes the fixed placeholder list. -/
def getRandomPlaceholder (r : Nat) : String :=
  PLACEHOLDER_TEXTS.getD (r % PLACEHOLDER_TEXTS.length) "thinking..."

end Prototype

/-! ## Helper lemmas -/

namespace Core

theorem map_id_of_mem {α : Type} {l : List α} {f : α → α}
    (h : ∀ x ∈ l, f x = x) : l.map f = l := by
  induction l with
  | nil => rfl
  | cons a t ih =>
    simp only [List.map_cons]
    rw [h a (List.mem_cons_self a t), ih fun x hx => h x (List.mem_cons_of_mem a hx)]

theorem enterRunning_sessionId (s : Session) :
    (enterRunning s).sessionId = s.sessionId := rfl

theorem applySession_sessionId (s : Session) (e : AgentEvent) (now : Nat) :
    (applySession s e now).sessionId = s.sessionId := by
  cases e <;> simp only [applySession, enterRunning] <;>
    (repeat' split) <;> rfl

theorem findSession?_map (reg : Registry) (f : Session → Session) (sid : String)
    (hf : ∀ s, (f s).sessionId = s.sessionId) :
    findSession? (reg.map f) sid = (findSession? reg sid).map f := by
  induction reg with
  | nil => rfl
  | cons a t ih =>
    simp only [List.map_cons, findSession?, List.find?, hf a]
    cases h : a.sessionId == sid <;>
      simp_all [findSession?]

theorem findSession?_append_of_none {reg : Registry} {sid : String}
    (h : findSession? reg sid = none) (l : Registry) :
    findSession? (reg ++ l) sid = findSession? l sid := by
  induction reg with
  | nil => rfl
  | cons a t ih =>
    simp only [findSession?, List.find?, List.cons_append] at h ⊢
    cases hc : a.sessionId == sid <;> simp_all [findSession?]

theorem findSession?_eq_none_iff_any {reg : Registry} {sid : String} :
    findSession? reg sid = none ↔
      reg.any (fun s => s.sessionId == sid) = false := by
  induction reg with
  | nil => simp [findSession?]
  | cons a t ih =>
    simp only [findSession?, List.find?, List.any_cons] at ih ⊢
    cases hc : a.sessionId == sid <;> simp_all [findSession?]

theorem any_of_findSession?_some {reg : Registry} {sid : String} {s : Session}
    (h : findSession? reg sid = some s) :
    reg.any (fun t => t.sessionId == sid) = true := by
  have h' : reg.find? (fun t => t.sessionId == sid) = some s := h
  have hmem := List.mem_of_find?_eq_some h'
  have hp := List.find?_some h'
  exact List.any_eq_true.mpr ⟨s, hmem, hp⟩

theorem findSession?_applyEvent_of_some {reg : Registry} {sid : String}
    {s : Session} {e : AgentEvent} {now : Nat}
    (hfind : findSession? reg sid = some s) (hsid : e.sessionId = sid)
    (hmap : applyEvent reg e now = reg.map fun t =>
      if t.sessionId == e.sessionId then applySession t e now else t) :
    findSession? (applyEvent reg e now) sid = some (applySession s e now) := by
  rw [hmap, findSession?_map]
  · rw [hfind]
    have hfind' : reg.find? (fun t => t.sessionId == sid) = some s := hfind
    have hp := List.find?_some hfind'
    have hps : s.sessionId = sid := by simpa using hp
    simp [hsid, hps]
  · intro t
    split
    · exact applySession_sessionId t e now
    · rfl

end Core

/-! ## Claims about the core registry -/

namespace Core

/-- C1: applying a `SessionStarted` event for a `session_id` not in the
registry creates that session with state Running and empty `running_tools`;
for a `session_id` already in the registry it transitions the session to
Running from every non-Running state, and when the session is already Running
it resets the running tools. -/
theorem sessionStarted_creates_or_resumes (reg : Registry) (sid cwd : String)
    (nm : Option String) (now : Nat) :
    (findSession? reg sid = none →
      findSession? (applyEvent reg (.sessionStarted sid cwd nm) now) sid
        = some (newSession sid cwd nm)) ∧
    (∀ s, findSession? reg sid = some s →
      ∃ s', findSession? (applyEvent reg (.sessionStarted sid cwd nm) now) sid
          = some s' ∧ s'.state = .running ∧
          (s.state = .running → s'.runningTools = [])) := by
  constructor
  · intro h
    have hany := findSession?_eq_none_iff_any.mp h
    have hmap : applyEvent reg (.sessionStarted sid cwd nm) now
        = reg ++ [newSession sid cwd nm] := by
      simp [applyEvent, hany]
    rw [hmap, findSession?_append_of_none h]
    simp [findSession?, newSession, List.find?]
  · intro s hs
    have hany := any_of_findSession?_some hs
    have hmap : applyEvent reg (.sessionStarted sid cwd nm) now
        = reg.map fun t =>
            if t.sessionId == (AgentEvent.sessionStarted sid cwd nm).sessionId
            then applySession t (.sessionStarted sid cwd nm) now else t := by
      simp [applyEvent, hany, AgentEvent.sessionId]
    refine ⟨applySession s (.sessionStarted sid cwd nm) now,
      findSession?_applyEvent_of_some hs rfl hmap, ?_, ?_⟩
    · simp only [applySession]
      split
      · next hrun => exact hrun
      · simp [enterRunning]
    · intro hrun
      simp [applySession, hrun]

/-- Witness for C1 at concrete inputs: creating a fresh session `s1`, then
resuming it out of Attention, then restarting it while Running. -/
theorem sessionStarted_creates_or_resumes_witness :
    (findSession? (applyEvent [] (.sessionStarted "s1" "/u/dev/app" none) 0)
      "s1" = some (newSession "s1" "/u/dev/app" none)) ∧
    (∃ s', findSession?
        (applyEvent [{ sessionId := "s1", cwd := "/u/dev/app", name := none,
                       state := .attention,
                       runningTools := [⟨"t1", "Read", none⟩],
                       stoppedAt := none, staleAt := none,
                       permissionTool := some "Bash" }]
          (.sessionStarted "s1" "/u/dev/app" none) 7) "s1"
        = some s' ∧ s'.state = .running ∧
        (SessionState.attention = .running → s'.runningTools = [])) := by
  constructor
  · exact (sessionStarted_creates_or_resumes [] "s1" "/u/dev/app" none 0).1
      (by decide)
  · exact (sessionStarted_creates_or_resumes _ "s1" "/u/dev/app" none 7).2
      { sessionId := "s1", cwd := "/u/dev/app", name := none,
        state := .attention, runningTools := [⟨"t1", "Read", none⟩],
        stoppedAt := none, staleAt := none, permissionTool := some "Bash" }
      (by decide)

/-- C2: a `Notification` hook message with `notification_type =
permission_prompt` maps to `NeedsAttention(tool_name)`, driving the target
session to state Attention with `permission_tool` set to the tool name;
`idle_prompt` maps to `WaitingForInput` (state Waiting); any other
`notification_type` maps to `NeedsAttention(message)`. -/
theorem notification_mapping (reg : Registry) (sid : String)
    (tn msg : Option String) (now : Nat) (s : Session)
    (hs : findSession? reg sid = some s) :
    (notificationEvents sid "permission_prompt" tn msg
        = [.needsAttention sid tn] ∧
      ∃ s', findSession? (applyEvent reg (.needsAttention sid tn) now) sid
          = some s' ∧ s'.state = .attention ∧ s'.permissionTool = tn) ∧
    (notificationEvents sid "idle_prompt" tn msg = [.waitingForInput sid] ∧
      ∃ s', findSession? (applyEvent reg (.waitingForInput sid) now) sid
          = some s' ∧ s'.state = .waiting) ∧
    (∀ nt, nt ≠ "permission_prompt" → nt ≠ "idle_prompt" →
      notificationEvents sid nt tn msg = [.needsAttention sid msg]) := by
  refine ⟨⟨by simp [notificationEvents], ?_⟩,
          ⟨by simp [notificationEvents], ?_⟩, ?_⟩
  · refine ⟨applySession s (.needsAttention sid tn) now,
      findSession?_applyEvent_of_some hs rfl rfl, ?_, ?_⟩ <;>
      simp [applySession]
  · refine ⟨applySession s (.waitingForInput sid) now,
      findSession?_applyEvent_of_some hs rfl rfl, ?_⟩
    simp only [applySession]
    split
    · next h => exact h
    · rfl
  · intro nt h1 h2
    simp [notificationEvents, h1, h2]

/-- Witness for C2: a registry holding one session `s1`; the permission
prompt puts `s1` into Attention with the tool recorded. -/
theorem notification_mapping_witness :
    ∃ s', findSession?
        (applyEvent [newSession "s1" "/u" none]
          (.needsAttention "s1" (some "Bash")) 3) "s1"
      = some s' ∧ s'.state = .attention ∧ s'.permissionTool = some "Bash" :=
  ((notification_mapping [newSession "s1" "/u" none] "s1" (some "Bash")
    (some "check") 3 (newSession "s1" "/u" none) (by decide)).1).2

/-- Any member of `applyEvent reg e now` is an untouched member of `reg`, the
image of a member under `applySession`, or the freshly created session. -/
theorem applyEvent_mem_cases (reg : Registry) (e : AgentEvent) (now : Nat)
    {s' : Session} (hs' : s' ∈ applyEvent reg e now) :
    s' ∈ reg ∨ (∃ s ∈ reg, s' = applySession s e now) ∨
    (∃ sid cwd nm, e = .sessionStarted sid cwd nm ∧
      s' = newSession sid cwd nm) := by
  cases e
  case sessionStarted sid cwd nm =>
    simp only [applyEvent] at hs'
    split at hs'
    · rcases List.mem_map.mp hs' with ⟨s, hmem, heq⟩
      split at heq
      · exact Or.inr (Or.inl ⟨s, hmem, heq.symm⟩)
      · exact Or.inl (heq ▸ hmem)
    · rcases List.mem_append.mp hs' with h | h
      · exact Or.inl h
      · simp only [List.mem_singleton] at h
        exact Or.inr (Or.inr ⟨sid, cwd, nm, rfl, h⟩)
  case sessionEnded sid =>
    exact Or.inl (List.mem_of_mem_filter hs')
  all_goals
    rcases List.mem_map.mp hs' with ⟨s, hmem, heq⟩
  all_goals
    split at heq
  all_goals
    first
      | exact Or.inr (Or.inl ⟨s, hmem, heq.symm⟩)
      | exact Or.inl (heq ▸ hmem)

/-- Any member of `fireStale reg sid now` is an untouched member of `reg` or
a member that transitioned to Stale. -/
theorem fireStale_mem_cases {reg : Registry} {sid : String} {now : Nat}
    {s' : Session} (hs' : s' ∈ fireStale reg sid now) :
    s' ∈ reg ∨ ∃ s ∈ reg, s' =
      { s with state := .stale, staleAt := some now,
               stoppedAt := none, permissionTool := none } := by
  rcases List.mem_map.mp hs' with ⟨s, hmem, heq⟩
  split at heq
  · exact Or.inr ⟨s, hmem, heq.symm⟩
  · exact Or.inl (heq ▸ hmem)

/-- A per-session property preserved by `applySession` and satisfied by fresh
sessions holds for every session after any event. -/
theorem applyEvent_preserves (P : Session → Prop)
    (hP : ∀ s e now, P s → P (applySession s e now))
    (hnew : ∀ sid cwd nm, P (newSession sid cwd nm))
    (reg : Registry) (e : AgentEvent) (now : Nat)
    (h : ∀ s ∈ reg, P s) : ∀ s' ∈ applyEvent reg e now, P s' := by
  intro s' hs'
  rcases applyEvent_mem_cases reg e now hs' with
    hmem | ⟨s, hmem, rfl⟩ | ⟨sid, cwd, nm, _, rfl⟩
  · exact h s' hmem
  · exact hP s e now (h s hmem)
  · exact hnew sid cwd nm

theorem applySession_permInv {s : Session} (e : AgentEvent) (now : Nat)
    (h : permInv s) : permInv (applySession s e now) := by
  cases e <;>
    simp only [applySession, enterRunning, permInv] at h ⊢ <;>
    (repeat' split) <;>
    simp_all [permInv]

theorem applySession_idleInv {s : Session} (e : AgentEvent) (now : Nat)
    (h : idleInv s) : idleInv (applySession s e now) := by
  cases e <;>
    simp only [applySession, enterRunning, idleInv] at h ⊢ <;>
    (repeat' split) <;>
    simp_all [idleInv]

theorem applySession_state_stale {s : Session} {e : AgentEvent} {now : Nat}
    (h : (applySession s e now).state = .stale) : s.state = .stale := by
  cases e <;>
    simp only [applySession, enterRunning] at h <;>
    (repeat' split at h) <;>
    simp_all

/-- C3: `permission_tool` is set exactly on entry into Attention
(`NeedsAttention(m)` drives the session to Attention with `permission_tool`
set to `m`), the invariant "`permission_tool` set implies state Attention" is
preserved by every event and by a stale-timer firing (so it is cleared on
every transition away from Attention), and an `Activity` event on a session
in Attention yields Running with `permission_tool` cleared. -/
theorem permissionTool_iff_attention :
    (∀ (reg : Registry) (e : AgentEvent) (now : Nat),
      (∀ s ∈ reg, permInv s) → ∀ s' ∈ applyEvent reg e now, permInv s') ∧
    (∀ (reg : Registry) (sid : String) (now : Nat),
      (∀ s ∈ reg, permInv s) → ∀ s' ∈ fireStale reg sid now, permInv s') ∧
    (∀ (reg : Registry) (sid : String) (m : Option String) (now : Nat)
      (s : Session), findSession? reg sid = some s →
      ∃ s', findSession? (applyEvent reg (.needsAttention sid m) now) sid
          = some s' ∧ s'.state = .attention ∧ s'.permissionTool = m) ∧
    (∀ (reg : Registry) (sid : String) (now : Nat) (s : Session),
      findSession? reg sid = some s → s.state = .attention →
      ∃ s', findSession? (applyEvent reg (.activity sid) now) sid
          = some s' ∧ s'.state = .running ∧ s'.permissionTool = none) := by
  refine ⟨?_, ?_, ?_, ?_⟩
  · intro reg e now h
    exact applyEvent_preserves permInv
      (fun s e now => applySession_permInv e now)
      (fun sid cwd nm => by simp [permInv, newSession]) reg e now h
  · intro reg sid now h s' hs'
    rcases fireStale_mem_cases hs' with hmem | ⟨s, hmem, rfl⟩
    · exact h s' hmem
    · simp [permInv]
  · intro reg sid m now s hs
    exact ⟨applySession s (.needsAttention sid m) now,
      findSession?_applyEvent_of_some hs rfl rfl,
      by simp [applySession], by simp [applySession]⟩
  · intro reg sid now s hs hatt
    refine ⟨applySession s (.activity sid) now,
      findSession?_applyEvent_of_some hs rfl rfl, ?_, ?_⟩ <;>
      simp [applySession, hatt, enterRunning]

/-- Witness for C3: an `Activity` event moves a concrete Attention session
(with `permission_tool = some "Bash"`) to Running and clears the tool. -/
theorem permissionTool_iff_attention_witness :
    ∃ s', findSession?
        (applyEvent [{ sessionId := "s1", cwd := "/u", name := none,
                       state := .attention, runningTools := [],
                       stoppedAt := none, staleAt := none,
                       permissionTool := some "Bash" }] (.activity "s1") 9)
        "s1" = some s' ∧ s'.state = .running ∧ s'.permissionTool = none :=
  permissionTool_iff_attention.2.2.2
    [{ sessionId := "s1", cwd := "/u", name := none,
       state := .attention, runningTools := [],
       stoppedAt := none, staleAt := none,
       permissionTool := some "Bash" }] "s1" 9
    { sessionId := "s1", cwd := "/u", name := none,
      state := .attention, runningTools := [],
      stoppedAt := none, staleAt := none,
      permissionTool := some "Bash" } (by decide) (by decide)

/-- C4: a Running session never transitions to Stale — a stale-timer firing
is a no-op on a registry whose sessions with the fired `session_id` are
Running, and no event ever takes a session from a non-Stale state to
Stale. -/
theorem running_blocks_stale :
    (∀ (reg : Registry) (sid : String) (now : Nat),
      (∀ s ∈ reg, s.sessionId = sid → s.state = .running) →
      fireStale reg sid now = reg) ∧
    (∀ (reg : Registry) (e : AgentEvent) (now : Nat) (s' : Session),
      s' ∈ applyEvent reg e now → s'.state = .stale →
      ∃ s ∈ reg, s.sessionId = s'.sessionId ∧ s.state = .stale) := by
  constructor
  · intro reg sid now h
    unfold fireStale
    apply map_id_of_mem
    intro s hmem
    by_cases hid : (s.sessionId == sid) = true
    · have hrun := h s hmem (by simpa using hid)
      simp [staleEligible, hrun]
    · simp [hid]
  · intro reg e now s' hs' hstale
    rcases applyEvent_mem_cases reg e now hs' with
      hmem | ⟨s, hmem, rfl⟩ | ⟨sid, cwd, nm, _, rfl⟩
    · exact ⟨s', hmem, rfl, hstale⟩
    · exact ⟨s, hmem, (applySession_sessionId s e now).symm,
        applySession_state_stale hstale⟩
    · simp [newSession] at hstale

/-- Witness for C4: the timer firing leaves a concrete Running session
untouched, and a Running session after an `Activity` event is not Stale. -/
theorem running_blocks_stale_witness :
    fireStale [{ sessionId := "s1", cwd := "/u", name := none,
                 state := .running, runningTools := [], stoppedAt := none,
                 staleAt := none, permissionTool := none }] "s1" 99
      = [{ sessionId := "s1", cwd := "/u", name := none,
           state := .running, runningTools := [], stoppedAt := none,
           staleAt := none, permissionTool := none }] :=
  running_blocks_stale.1
    [{ sessionId := "s1", cwd := "/u", name := none,
       state := .running, runningTools := [], stoppedAt := none,
       staleAt := none, permissionTool := none }] "s1" 99 (by decide)

/-- C5: `state = Idle` implies `running_tools = ∅`, the invariant is
preserved by every event and by a stale-timer firing, and applying an `Idle`
event leaves the targeted session in Idle with no running tools. -/
theorem idle_implies_no_tools :
    (∀ (reg : Registry) (e : AgentEvent) (now : Nat),
      (∀ s ∈ reg, idleInv s) → ∀ s' ∈ applyEvent reg e now, idleInv s') ∧
    (∀ (reg : Registry) (sid : String) (now : Nat),
      (∀ s ∈ reg, idleInv s) → ∀ s' ∈ fireStale reg sid now, idleInv s') ∧
    (∀ (reg : Registry) (sid : String) (now : Nat) (s' : Session),
      s' ∈ applyEvent reg (.idle sid) now → s'.sessionId = sid →
      s'.state = .idle ∧ s'.runningTools = []) := by
  refine ⟨?_, ?_, ?_⟩
  · intro reg e now h
    exact applyEvent_preserves idleInv
      (fun s e now => applySession_idleInv e now)
      (fun sid cwd nm => by simp [idleInv, newSession]) reg e now h
  · intro reg sid now h s' hs'
    rcases fireStale_mem_cases hs' with hmem | ⟨s, hmem, rfl⟩
    · exact h s' hmem
    · simp [idleInv]
  · intro reg sid now s' hs' hsid
    simp only [applyEvent] at hs'
    rcases List.mem_map.mp hs' with ⟨s, hmem, heq⟩
    split at heq
    · rw [← heq]
      constructor <;> simp [applySession]
    · next hns =>
      rw [← heq] at hsid
      exact absurd (by simpa using hsid) (by simpa using hns)

/-- Witness for C5: applying `Idle` to a concrete Running session with one
running tool leaves it Idle with no tools. -/
theorem idle_implies_no_tools_witness :
    ({ sessionId := "s1", cwd := "/u", name := none, state := .idle,
       runningTools := [], stoppedAt := some 5, staleAt := none,
       permissionTool := none } : Session).state = .idle ∧
    ({ sessionId := "s1", cwd := "/u", name := none, state := .idle,
       runningTools := [], stoppedAt := some 5, staleAt := none,
       permissionTool := none } : Session).runningTools = [] :=
  idle_implies_no_tools.2.2
    [{ sessionId := "s1", cwd := "/u", name := none, state := .running,
       runningTools := [⟨"t1", "Read", some "main.rs"⟩], stoppedAt := none,
       staleAt := none, permissionTool := none }] "s1" 5
    { sessionId := "s1", cwd := "/u", name := none, state := .idle,
      runningTools := [], stoppedAt := some 5, staleAt := none,
      permissionTool := none } (by decide) (by decide)

theorem filter_idem {α : Type} (l : List α) (p : α → Bool) :
    (l.filter p).filter p = l.filter p := by
  induction l with
  | nil => rfl
  | cons a t ih =>
    by_cases h : p a <;> simp [List.filter_cons, h, ih]

theorem map_congr_mem {α β : Type} {l : List α} {f g : α → β}
    (h : ∀ x ∈ l, f x = g x) : l.map f = l.map g := by
  induction l with
  | nil => rfl
  | cons a t ih =>
    simp only [List.map_cons]
    rw [h a (List.mem_cons_self a t), ih fun x hx => h x (List.mem_cons_of_mem a hx)]

theorem applySession_toolCompleted_idem (s : Session) (sid tid : String)
    (n n' : Nat) :
    applySession (applySession s (.toolCompleted sid tid) n)
      (.toolCompleted sid tid) n'
    = applySession s (.toolCompleted sid tid) n := by
  simp only [applySession]
  rw [filter_idem]

theorem applyEvent_toolCompleted_idem (reg : Registry) (sid tid : String)
    (n n' : Nat) :
    applyEvent (applyEvent reg (.toolCompleted sid tid) n)
      (.toolCompleted sid tid) n'
    = applyEvent reg (.toolCompleted sid tid) n := by
  simp only [applyEvent, List.map_map]
  apply map_congr_mem
  intro s _
  by_cases hid : (s.sessionId == (AgentEvent.toolCompleted sid tid).sessionId)
      = true
  · simp only [Function.comp_apply, hid, if_pos,
      applySession_sessionId s (.toolCompleted sid tid) n]
    exact applySession_toolCompleted_idem s sid tid n n'
  · simp only [Function.comp_apply, hid, if_neg]
    simp [hid]

theorem applyCompletedN_collapse (reg : Registry) (sid tid : String)
    (now : Nat) : ∀ k, 1 ≤ k →
    applyCompletedN reg sid tid now k = applyCompletedN reg sid tid now 1 := by
  intro k
  induction k with
  | zero => omega
  | succ k ih =>
    intro _
    rcases Nat.eq_zero_or_pos k with rfl | hpos
    · rfl
    · simp only [applyCompletedN]
      rw [ih hpos]
      simp only [applyCompletedN]
      exact applyEvent_toolCompleted_idem reg sid tid now now

/-- C6: `ToolCompleted` is idempotent — a `ToolStarted(s, t)` followed by any
positive number of `ToolCompleted(s, t)` events equals a single completion,
and a `ToolCompleted` whose `tool_id` does not occur in the target session's
`running_tools` leaves the registry unchanged. -/
theorem toolCompleted_idempotent :
    (∀ (reg : Registry) (sid tid tname : String) (tlabel : Option String)
      (now : Nat) (k : Nat), 1 ≤ k →
      applyCompletedN (applyEvent reg (.toolStarted sid tid tname tlabel) now)
        sid tid now k
      = applyCompletedN
          (applyEvent reg (.toolStarted sid tid tname tlabel) now)
          sid tid now 1) ∧
    (∀ (reg : Registry) (sid tid : String) (now : Nat),
      (∀ s ∈ reg, s.sessionId = sid → s.hasTool tid = false) →
      applyEvent reg (.toolCompleted sid tid) now = reg) := by
  constructor
  · intro reg sid tid tname tlabel now k hk
    exact applyCompletedN_collapse _ sid tid now k hk
  · intro reg sid tid now h
    simp only [applyEvent]
    apply map_id_of_mem
    intro s hmem
    by_cases hid : (s.sessionId == (AgentEvent.toolCompleted sid tid).sessionId)
        = true
    · rw [if_pos hid]
      have hfalse := h s hmem (by simpa using hid)
      simp only [applySession]
      have hall : ∀ x ∈ s.runningTools, ¬x.toolId = tid := by
        simpa [Session.hasTool] using hfalse
      have hkeep : s.runningTools.filter (fun t => t.toolId != tid)
          = s.runningTools := by
        apply List.filter_eq_self.mpr
        intro t ht
        simpa using hall t ht
      rw [hkeep]
    · rw [if_neg (by simpa using hid)]

/-- Witness for C6: starting tool `t1` then completing it three times equals
completing it once, and completing an unknown tool id is a no-op on a
concrete registry. -/
theorem toolCompleted_idempotent_witness :
    (applyCompletedN
        (applyEvent [newSession "s1" "/u" none]
          (.toolStarted "s1" "t1" "Read" none) 2) "s1" "t1" 2 3
      = applyCompletedN
          (applyEvent [newSession "s1" "/u" none]
            (.toolStarted "s1" "t1" "Read" none) 2) "s1" "t1" 2 1) ∧
    (applyEvent [newSession "s1" "/u" none] (.toolCompleted "s1" "zz") 4
      = [newSession "s1" "/u" none]) :=
  ⟨toolCompleted_idempotent.1 [newSession "s1" "/u" none] "s1" "t1" "Read"
      none 2 3 (by decide),
   toolCompleted_idempotent.2 [newSession "s1" "/u" none] "s1" "zz" 4
      (by decide)⟩

theorem splitDunder_boundary : ∀ (x y : List Char),
    hasDunder (x ++ ['_']) = false →
    splitDunder (x ++ '_' :: '_' :: y) = some (x, y) := by
  intro x
  induction x with
  | nil =>
    intro y _
    simp [splitDunder]
  | cons c rest ih =>
    intro y h
    simp only [List.cons_append, hasDunder, Bool.or_eq_false_iff] at h
    obtain ⟨h1, h2⟩ := h
    have hcond :
        (c == '_' && ((rest ++ '_' :: '_' :: y).head? == some '_')) = false := by
      cases rest with
      | nil =>
        simp only [List.nil_append, List.head?_cons] at h1 ⊢
        simpa using h1
      | cons r rs =>
        simpa using h1
    simp only [splitDunder, List.cons_append, List.append_eq, hcond,
      Bool.false_eq_true, if_false, ih y h2]

theorem mcpParts_shape (X Y : String)
    (h : hasDunder (X.data ++ ['_']) = false) :
    mcpParts ("mcp__" ++ X ++ "__" ++ Y) = some (X, Y) := by
  have hdata : ("mcp__" ++ X ++ "__" ++ Y).data
      = 'm' :: 'c' :: 'p' :: '_' :: '_'
          :: (X.data ++ '_' :: '_' :: Y.data) := by
    simp [String.data_append]
  simp only [mcpParts, hdata, splitDunder_boundary X.data Y.data h]

/-- C8: a running tool whose `tool_name` has the shape `mcp__X__Y` (with `X`
free of double underscores) renders its tool display as `"X: L"` when a label
`L` is present and as `"X: Y"` when no label is present. -/
theorem mcp_tool_display (X Y L : String)
    (h : hasDunder (X.data ++ ['_']) = false) :
    toolDisplay ("mcp__" ++ X ++ "__" ++ Y) (some L) = X ++ ": " ++ L ∧
    toolDisplay ("mcp__" ++ X ++ "__" ++ Y) none = X ++ ": " ++ Y := by
  constructor <;> simp [toolDisplay, mcpParts_shape X Y h]

/-- Witness for C8, the spec's scenario 5: `mcp__github__search_repositories`
with label `react hooks` renders as `github: react hooks`, and without a
label as `github: search_repositories`. -/
theorem mcp_tool_display_witness :
    toolDisplay ("mcp__" ++ "github" ++ "__" ++ "search_repositories")
        (some "react hooks") = "github" ++ ": " ++ "react hooks" ∧
    toolDisplay ("mcp__" ++ "github" ++ "__" ++ "search_repositories") none
      = "github" ++ ": " ++ "search_repositories" :=
  mcp_tool_display "github" "search_repositories" "react hooks" (by decide)

/-- C9: for a Running session with no running tools the subtitle placeholder
is drawn from the fixed eight-element placeholder set, and the selection is a
deterministic function of `session_id` alone: any two projections of sessions
with the same `session_id` (at any times) show the same placeholder. -/
theorem placeholder_stable_per_session (s₁ s₂ : Session) (now₁ now₂ : Nat)
    (hid : s₁.sessionId = s₂.sessionId)
    (h₁s : s₁.state = .running) (h₁t : s₁.runningTools = [])
    (h₂s : s₂.state = .running) (h₂t : s₂.runningTools = []) :
    rowSubtitle s₁ now₁ = rowSubtitle s₂ now₂ ∧
    rowSubtitle s₁ now₁ ∈ PLACEHOLDER_TEXTS := by
  have e₁ : rowSubtitle s₁ now₁ = placeholderFor s₁.sessionId := by
    simp [rowSubtitle, h₁s, h₁t]
  have e₂ : rowSubtitle s₂ now₂ = placeholderFor s₂.sessionId := by
    simp [rowSubtitle, h₂s, h₂t]
  refine ⟨by rw [e₁, e₂, hid], ?_⟩
  rw [e₁]
  unfold placeholderFor
  have hlen : PLACEHOLDER_TEXTS.length = 8 := rfl
  rw [hlen]
  have hlt : sessionIdHash s₁.sessionId % 8 < 8 :=
    Nat.mod_lt _ (by norm_num)
  have hall : ∀ n < 8,
      PLACEHOLDER_TEXTS.getD n "thinking…" ∈ PLACEHOLDER_TEXTS := by decide
  exact hall _ hlt

/-- Witness for C9: two session records sharing `session_id = "s1"` but
differing in `cwd`, `name` and projection time show the same placeholder. -/
theorem placeholder_stable_per_session_witness :
    rowSubtitle
        { sessionId := "s1", cwd := "/a", name := none, state := .running,
          runningTools := [], stoppedAt := none, staleAt := none,
          permissionTool := none } 0
      = rowSubtitle
          { sessionId := "s1", cwd := "/b", name := some "Fix Login",
            state := .running, runningTools := [], stoppedAt := none,
            staleAt := none, permissionTool := none } 5000 ∧
    rowSubtitle
        { sessionId := "s1", cwd := "/a", name := none, state := .running,
          runningTools := [], stoppedAt := none, staleAt := none,
          permissionTool := none } 0 ∈ PLACEHOLDER_TEXTS :=
  placeholder_stable_per_session
    { sessionId := "s1", cwd := "/a", name := none, state := .running,
      runningTools := [], stoppedAt := none, staleAt := none,
      permissionTool := none }
    { sessionId := "s1", cwd := "/b", name := some "Fix Login",
      state := .running, runningTools := [], stoppedAt := none,
      staleAt := none, permissionTool := none } 0 5000
    rfl rfl rfl rfl rfl

end Core

/-! ## Claims about the prototype -/

namespace Prototype

theorem contains_state_eq {l : List Session} {st : SessionState} :
    ((l.map fun s => s.state).contains st)
      = decide (∃ s ∈ l, s.state = st) := by
  by_cases h : ∃ s ∈ l, s.state = st
  · rcases h with ⟨s, hs, hst⟩
    have hmem : st ∈ l.map fun s => s.state := List.mem_map.mpr ⟨s, hs, hst⟩
    rw [decide_eq_true ⟨s, hs, hst⟩]
    exact List.elem_iff.mpr hmem
  · have hmem : st ∉ l.map fun s => s.state := by
      intro hc
      rcases List.mem_map.mp hc with ⟨s, hs, hst⟩
      exact h ⟨s, hs, hst⟩
    rw [decide_eq_false h]
    cases hc : ((l.map fun s => s.state).contains st) with
    | false => rfl
    | true => exact absurd (List.elem_iff.mp hc) hmem

theorem getIndicatorState_char (l : List Session) :
    getIndicatorState l =
      if l = [] then .idle
      else if ∃ s ∈ l, s.state = .attention then .attention
      else if ∃ s ∈ l, s.state = .waiting then .waiting
      else .running := by
  by_cases h0 : l = []
  · subst h0
    rfl
  · have h0' : (l.length == 0) = false := by
      simpa [List.length_eq_zero] using h0
    simp only [getIndicatorState, h0', Bool.false_eq_true, if_false,
      contains_state_eq, h0]
    by_cases ha : ∃ s ∈ l, s.state = .attention <;>
      by_cases hw : ∃ s ∈ l, s.state = .waiting <;>
      simp [ha, hw]

/-- C7: the aggregate indicator state over a list of sessions is `idle` when
no sessions exist, otherwise `attention` if any session is in Attention,
otherwise `waiting` if any session is in Waiting, otherwise `running`; and
the result is invariant under permutations of the session list. -/
theorem indicator_aggregate :
    (∀ l : List Session,
      getIndicatorState l =
        if l = [] then .idle
        else if ∃ s ∈ l, s.state = .attention then .attention
        else if ∃ s ∈ l, s.state = .waiting then .waiting
        else .running) ∧
    (∀ l₁ l₂ : List Session, l₁.Perm l₂ →
      getIndicatorState l₁ = getIndicatorState l₂) := by
  refine ⟨getIndicatorState_char, ?_⟩
  intro l₁ l₂ hp
  rw [getIndicatorState_char, getIndicatorState_char]
  have h0 : (l₁ = []) = (l₂ = []) := by
    apply propext
    constructor <;> intro h <;> subst h
    · exact hp.symm.eq_nil
    · exact hp.eq_nil
  have hA : (∃ s ∈ l₁, s.state = .attention)
      = (∃ s ∈ l₂, s.state = .attention) := by
    apply propext
    constructor <;> rintro ⟨s, hs, hst⟩
    · exact ⟨s, hp.mem_iff.mp hs, hst⟩
    · exact ⟨s, hp.mem_iff.mpr hs, hst⟩
  have hW : (∃ s ∈ l₁, s.state = .waiting)
      = (∃ s ∈ l₂, s.state = .waiting) := by
    apply propext
    constructor <;> rintro ⟨s, hs, hst⟩
    · exact ⟨s, hp.mem_iff.mp hs, hst⟩
    · exact ⟨s, hp.mem_iff.mpr hs, hst⟩
  simp only [h0, hA, hW]

/-- Witness for C7: swapping an Attention session and a Waiting session does
not change the aggregate indicator. -/
theorem indicator_aggregate_witness :
    getIndicatorState
        [{ sessionId := "a", cwd := "/", name := none, state := .attention,
           runningTools := [] },
         { sessionId := "b", cwd := "/", name := none, state := .waiting,
           runningTools := [] }]
      = getIndicatorState
          [{ sessionId := "b", cwd := "/", name := none, state := .waiting,
             runningTools := [] },
           { sessionId := "a", cwd := "/", name := none, state := .attention,
             runningTools := [] }] :=
  indicator_aggregate.2 _ _
    (List.Perm.swap
      ({ sessionId := "b", cwd := "/", name := none, state := .waiting,
         runningTools := [] } : Session)
      ({ sessionId := "a", cwd := "/", name := none, state := .attention,
         runningTools := [] } : Session) [])

/-- C10: a `PreToolUse` event whose tool id already occurs in the targeted
session's `runningTools` leaves the session list completely unchanged — no
tool is appended, the stored tool name and label are kept, and the session's
state is not modified. -/
theorem preToolUse_duplicate_noop (prev : List Session) (msg : SessionEvent)
    (now : Nat) (htype : msg.type = "PreToolUse")
    (hdup : ∀ s ∈ prev, s.sessionId = msg.sessionId →
      s.runningTools.any
        (fun t => t.toolId == msg.toolId.getD ("tool-" ++ toString now))
        = true) :
    handleEvent prev msg now = prev := by
  unfold handleEvent
  rw [htype]
  norm_num
  apply Core.map_id_of_mem
  intro s hmem
  by_cases h1 : s.sessionId = msg.sessionId
  · have hany := hdup s hmem h1
    have hex : ∃ x ∈ s.runningTools,
        x.toolId = msg.toolId.getD ("tool-" ++ toString now) := by
      rcases List.any_eq_true.mp hany with ⟨t, ht, htid⟩
      exact ⟨t, ht, by simpa using htid⟩
    simp [h1, hex]
  · simp [h1]

/-- Witness for C10: a duplicate `PreToolUse` for tool id `t1` (with a new
name and label) leaves a concrete Idle session untouched. -/
theorem preToolUse_duplicate_noop_witness :
    handleEvent
        [{ sessionId := "a", cwd := "/", name := none, state := .idle,
           runningTools := [⟨"t1", "Read", none⟩] }]
        { type := "PreToolUse", sessionId := "a", toolId := some "t1",
          toolName := some "Bash", toolLabel := some "npm test" } 7
      = [{ sessionId := "a", cwd := "/", name := none, state := .idle,
           runningTools := [⟨"t1", "Read", none⟩] }] :=
  preToolUse_duplicate_noop _ _ 7 rfl (by decide)

end Prototype

end Aura
